import Mathlib

/-!
Shallow embedding of the document-processing core of the nCotAi repository:
the PDF analysis heuristics (pdf_processor.go) and the bounded worker pool
(worker pool source file).  Go float64 values are modelled as exact
rationals; the one place where the Go code can divide by zero in float
arithmetic is modelled by the GoFloat type, which carries the IEEE special
values produced there.  Go byte lengths (len on strings) are modelled by the
UTF-8 byte size of the string.
-/

namespace Cotai

/-- Result of a Go float64 operation: a finite rational, positive infinity,
or NaN.  Only the quality-metric division can produce the special values. -/
inductive GoFloat where
  | finite (q : ℚ)
  | posInf
  | nan
deriving DecidableEq, Repr

/-- Go float64 division for the nonnegative operands used in
calculateQualityMetrics: b = 0 gives +Inf when a > 0 and NaN when a = 0. -/
def goDiv (a b : ℚ) : GoFloat :=
  if b = 0 then (if a = 0 then GoFloat.nan else GoFloat.posInf)
  else GoFloat.finite (a / b)

/-- Comparison x > c on a Go float, where x may be +Inf or NaN
(every comparison with NaN is false). -/
def GoFloat.gtQ (x : GoFloat) (c : ℚ) : Bool :=
  match x with
  | GoFloat.finite q => decide (c < q)
  | GoFloat.posInf => true
  | GoFloat.nan => false

/-- UTF-8 byte size of one character, as Go counts string bytes. -/
def charUtf8Size (c : Char) : Nat :=
  if c.toNat < 0x80 then 1
  else if c.toNat < 0x800 then 2
  else if c.toNat < 0x10000 then 3
  else 4

/-- Go len(s) on a string: its UTF-8 byte length. -/
def goLen (s : String) : Nat := (s.data.map charUtf8Size).sum

/-- Whether p is a prefix of l (over characters). -/
def isPrefixList (p l : List Char) : Bool :=
  match p, l with
  | [], _ => true
  | _ :: _, [] => false
  | a :: ps, b :: ls => a == b && isPrefixList ps ls

/-- Whether sub occurs as a contiguous substring of l (over characters).
For valid UTF-8 this coincides with Go byte-level strings.Contains. -/
def containsSub : List Char → List Char → Bool
  | [], sub => isPrefixList sub []
  | c :: t, sub => isPrefixList sub (c :: t) || containsSub t sub

/-- Go strings.Contains(s, sub). -/
def goContains (s sub : String) : Bool := containsSub s.data sub.data

/-- Go strings.ToLower, restricted to ASCII case pairs (the Go original is
full Unicode; every keyword in the dictionaries below is already
lower-case, so the ASCII restriction is invisible to the dictionaries). -/
def goToLower (s : String) : String := ⟨s.data.map Char.toLower⟩

/-- QualityMetrics struct of pdf_processor.go.  The two fields computed by
the division carry GoFloat; the fixed-constant fields are plain rationals. -/
structure QualityMetrics where
  textQuality : GoFloat
  ocrConfidence : ℚ
  documentClarity : ℚ
  completeness : GoFloat
  readability : ℚ
deriving DecidableEq, Repr

/-- The Go zero value of QualityMetrics. -/
def zeroQualityMetrics : QualityMetrics :=
  { textQuality := GoFloat.finite 0, ocrConfidence := 0, documentClarity := 0,
    completeness := GoFloat.finite 0, readability := 0 }

/-- calculateQualityMetrics from pdf_processor.go:
textQuality := len(text)/(pageCount*500), clamped above at 1.0; fixed
constants for the other fields.  There is no guard for pageCount = 0. -/
def calculateQualityMetrics (text : String) (pageCount : Nat) : QualityMetrics :=
  let textLength := goLen text
  let textQuality0 := goDiv textLength (pageCount * 500)
  let textQuality := if textQuality0.gtQ 1 then GoFloat.finite 1 else textQuality0
  { textQuality := textQuality,
    ocrConfidence := 85 / 100,
    documentClarity := 80 / 100,
    completeness := textQuality,
    readability := 75 / 100 }

/-- ExtractedEntity struct of pdf_processor.go. -/
structure ExtractedEntity where
  type : String
  value : String
  confidence : ℚ
  startPos : Nat
  endPos : Nat
  page : Nat
deriving DecidableEq, Repr

/-- IdentifiedRisk struct of pdf_processor.go. -/
structure IdentifiedRisk where
  category : String
  description : String
  severity : String
  impact : String
  confidence : ℚ
  location : String
deriving DecidableEq, Repr

/-- RiskAnalysis struct of pdf_processor.go. -/
structure RiskAnalysis where
  overallRisk : String
  riskScore : ℚ
  identifiedRisks : List IdentifiedRisk
  recommendations : List String
  confidence : ℚ
deriving DecidableEq, Repr

/-- The Go zero value of RiskAnalysis. -/
def zeroRiskAnalysis : RiskAnalysis :=
  { overallRisk := "", riskScore := 0, identifiedRisks := [],
    recommendations := [], confidence := 0 }

/-- The entity pattern table of extractBasicEntities.  The regex strings are
declared by the Go code but never compiled or matched; the loop only ever
inspects the map keys.  Repetition braces are written as \x7b and \x7d. -/
def entityPatterns : List (String × String) :=
  [("CNPJ", "\\d\x7b2\x7d\\.\\d\x7b3\x7d\\.\\d\x7b3\x7d/\\d\x7b4\x7d-\\d\x7b2\x7d"),
   ("CPF", "\\d\x7b3\x7d\\.\\d\x7b3\x7d\\.\\d\x7b3\x7d-\\d\x7b2\x7d"),
   ("EMAIL", "[a-zA-Z0-9._%+-]+@[a-zA-Z0-9.-]+\\.[a-zA-Z]\x7b2,\x7d"),
   ("PHONE", "\\(\\d\x7b2\x7d\\)\\s*\\d\x7b4,5\x7d-\\d\x7b4\x7d"),
   ("CURRENCY", "R\\$\\s*\\d\x7b1,3\x7d(?:\\.\\d\x7b3\x7d)*(?:,\\d\x7b2\x7d)?"),
   ("DATE", "\\d\x7b1,2\x7d/\\d\x7b1,2\x7d/\\d\x7b4\x7d")]

/-- extractBasicEntities from pdf_processor.go: despite the pattern table,
the loop body only appends one placeholder entity when the raw text contains
the literal substring CNPJ and the iterated key is CNPJ.  Go map iteration
order is unspecified; the result is the same singleton or empty list in
every order, so the source declaration order is used. -/
def extractBasicEntities (text : String) : List ExtractedEntity :=
  entityPatterns.filterMap (fun p =>
    if goContains text "CNPJ" && p.1 == "CNPJ" then
      some { type := p.1, value := "XX.XXX.XXX/XXXX-XX", confidence := 85 / 100,
             startPos := 0, endPos := 20, page := 1 }
    else none)

/-- The risk keyword/weight dictionary of performBasicRiskAnalysis, in
source declaration order. -/
def riskKeywords : List (String × ℚ) :=
  [("multa", 3 / 10),
   ("penalidade", 4 / 10),
   ("rescisão", 5 / 10),
   ("garantia", 2 / 10),
   ("caução", 3 / 10),
   ("prazo", 1 / 10),
   ("inexequível", 8 / 10),
   ("impugnação", 6 / 10),
   ("exclusivo", 4 / 10)]

/-- The keywords of riskKeywords contained in the lower-cased text. -/
def matchedRiskKeywords (text : String) : List (String × ℚ) :=
  riskKeywords.filter (fun kw => goContains (goToLower text) kw.1)

/-- performBasicRiskAnalysis from pdf_processor.go: sum the weights of the
matched keywords, clamp above at 1.0, append one IdentifiedRisk per match,
bucket the clamped score with strict comparisons (> 0.7 high, > 0.4 medium,
else low).  Go map iteration order is unspecified; the sum and the risk
count are order-independent, so the source declaration order is used. -/
def performBasicRiskAnalysis (text : String) : RiskAnalysis :=
  let matched := matchedRiskKeywords text
  let riskScore0 : ℚ := (matched.map (fun kw => kw.2)).sum
  let risks := matched.map (fun kw =>
    ({ category := "contractual",
       description := "Detected keyword: " ++ kw.1,
       severity := "medium",
       impact := "financial",
       confidence := 7 / 10,
       location := "document" } : IdentifiedRisk))
  let riskScore : ℚ := if riskScore0 > 1 then 1 else riskScore0
  let overallRisk :=
    if riskScore > 7 / 10 then "high"
    else if riskScore > 4 / 10 then "medium"
    else "low"
  { overallRisk := overallRisk,
    riskScore := riskScore,
    identifiedRisks := risks,
    recommendations := ["Review contract terms carefully", "Consult legal team"],
    confidence := 75 / 100 }

/-- The relevance keyword list of generateRelevanceScore, in source order. -/
def relevantKeywords : List String :=
  ["licitação", "pregão", "concorrência", "convite",
   "serviços", "fornecimento", "obras", "compras"]

/-- generateRelevanceScore from pdf_processor.go: start at 0.5, add 0.1 per
matched keyword, clamp above at 1.0.  The metadata argument is accepted and
ignored, as in the source. -/
def generateRelevanceScore (text : String) (_metadata : List (String × String)) : ℚ :=
  let textLower := goToLower text
  let score : ℚ := relevantKeywords.foldl
    (fun s keyword => if goContains textLower keyword then s + 1 / 10 else s) ((1 : ℚ) / 2)
  if score > 1 then 1 else score

/-- A character-class shape standing for the CNPJ regular expression in the
source pattern table: two digits, dot, three digits, dot, three digits,
slash, four digits, dash, two digits. -/
def cnpjPattern : List (Char → Bool) :=
  List.replicate 2 Char.isDigit ++ [(· == '.')] ++
  List.replicate 3 Char.isDigit ++ [(· == '.')] ++
  List.replicate 3 Char.isDigit ++ [(· == '/')] ++
  List.replicate 4 Char.isDigit ++ [(· == '-')] ++
  List.replicate 2 Char.isDigit

/-- Whether the shape matches a prefix of the character list. -/
def matchesShapeAt : List (Char → Bool) → List Char → Bool
  | [], _ => true
  | _ :: _, [] => false
  | p :: ps, c :: cs => p c && matchesShapeAt ps cs

/-- Whether the shape matches at some position of the character list
(unanchored, as the source regex is unanchored). -/
def shapeOccurs (shape : List (Char → Bool)) : List Char → Bool
  | [] => matchesShapeAt shape []
  | c :: t => matchesShapeAt shape (c :: t) || shapeOccurs shape t

/-- Whether the CNPJ regular expression of the source pattern table matches
somewhere in the text. -/
def cnpjPatternMatches (text : String) : Bool := shapeOccurs cnpjPattern text.data

/-- ProcessingOptions struct of pdf_processor.go. -/
structure ProcessingOptions where
  enableOCR : Bool
  languages : List String
  extractEntities : Bool
  analyzeRisks : Bool
  generateScore : Bool
  maxPages : Nat
  dpi : Nat
deriving DecidableEq, Repr

/-- ProcessingResult struct of pdf_processor.go.  The interface-typed
metadata map is modelled as a string association list; processing time is an
integer tick difference. -/
structure ProcessingResult where
  extractedText : String
  pageCount : Nat
  fileSize : Int
  processingTime : Int
  entities : List ExtractedEntity
  riskAnalysis : RiskAnalysis
  relevanceScore : ℚ
  qualityMetrics : QualityMetrics
  metadata : List (String × String)
deriving DecidableEq, Repr

/-- ProcessingJob struct of pdf_processor.go.  Timestamps are abstract
integer ticks. -/
structure ProcessingJob where
  id : String
  fileURL : String
  tenderID : String
  userID : String
  options : ProcessingOptions
  status : String
  createdAt : Int
  startedAt : Option Int
  completedAt : Option Int
  result : Option ProcessingResult
  error : String
  metadata : List (String × String)
deriving DecidableEq, Repr

/-- Outcome of opening the document container (the pdf.Open call plus the
per-page reads): either an open error, or the page list, where a page is
none when it is null or its text read fails (such pages are skipped). -/
inductive PDFOpenResult where
  | err (msg : String)
  | ok (pages : List (Option String))
deriving DecidableEq, Repr

/-- extractTextFromPDF from pdf_processor.go: fail when the container does
not open; otherwise concatenate each readable page text followed by a
newline, and return the page count. -/
def extractTextFromPDF (doc : PDFOpenResult) : Except String (String × Nat) :=
  match doc with
  | PDFOpenResult.err msg => Except.error ("failed to open PDF: " ++ msg)
  | PDFOpenResult.ok pages =>
      Except.ok ((pages.filterMap id).foldl (fun acc t => acc ++ t ++ "\n") "", pages.length)

/-- Outcome of the OCR engine call: an engine error, or recognized text plus
the mean-confidence parse result (none when the confidence string did not
parse). -/
inductive OCRResult where
  | err (msg : String)
  | ok (text : String) (meanConfidence : Option ℚ)
deriving DecidableEq, Repr

/-- performOCR from pdf_processor.go: engine failure propagates; otherwise
the confidence defaults to 85.0 when the mean-confidence string fails to
parse. -/
def performOCR (engine : OCRResult) : Except String (String × ℚ) :=
  match engine with
  | OCRResult.err msg => Except.error ("OCR failed: " ++ msg)
  | OCRResult.ok text conf? => Except.ok (text, conf?.getD 85)

/-- hasLowTextQuality from pdf_processor.go: short text, or more than 10
percent OCR-placeholder glyphs. -/
def hasLowTextQuality (text : String) : Bool :=
  if goLen text < 100 then true
  else
    let specialChars := text.data.count '□' + text.data.count '◯' + text.data.count '●'
    decide ((specialChars : ℚ) / (goLen text : ℚ) > 1 / 10)

/-- combineTexts from pdf_processor.go: keep whichever text is longer. -/
def combineTexts (originalText ocrText : String) : String :=
  if goLen originalText > goLen ocrText then originalText else ocrText

/-- processFile from pdf_processor.go, with the two external calls (the
container parser and the OCR engine) abstracted as input outcomes.  The
intermediate result records mirror the sequence of field assignments in the
source; in particular the OCR confidence written into result1 is overwritten
when result2 replaces the whole QualityMetrics struct. -/
def processFile (opts : ProcessingOptions) (metadata : List (String × String))
    (doc : PDFOpenResult) (ocr : OCRResult) : Except String ProcessingResult :=
  match extractTextFromPDF doc with
  | Except.error e => Except.error ("failed to extract text: " ++ e)
  | Except.ok (text, pageCount) =>
      let result0 : ProcessingResult :=
        { extractedText := text, pageCount := pageCount, fileSize := 0,
          processingTime := 0, entities := [], riskAnalysis := zeroRiskAnalysis,
          relevanceScore := 0, qualityMetrics := zeroQualityMetrics, metadata := [] }
      let result1 :=
        if opts.enableOCR && (goLen text < 100 || hasLowTextQuality text) then
          match performOCR ocr with
          | Except.error _ => result0
          | Except.ok (ocrText, confidence) =>
              { result0 with
                  extractedText := combineTexts text ocrText,
                  qualityMetrics := { result0.qualityMetrics with ocrConfidence := confidence } }
        else result0
      let result2 := { result1 with
        qualityMetrics := calculateQualityMetrics result1.extractedText result1.pageCount }
      let result3 :=
        if opts.extractEntities then
          { result2 with entities := extractBasicEntities result2.extractedText }
        else result2
      let result4 :=
        if opts.analyzeRisks then
          { result3 with riskAnalysis := performBasicRiskAnalysis result3.extractedText }
        else result3
      let result5 :=
        if opts.generateScore then
          { result4 with relevanceScore := generateRelevanceScore result4.extractedText metadata }
        else result4
      Except.ok result5

/-- ProcessDocument from pdf_processor.go: mark processing, run processFile,
and either mark failed with the wrapped error message (returning the error
to the caller) or attach the result and mark completed.  Status persistence
and the fire-and-forget analysis trigger are best-effort side effects with
no influence on the job value, so they do not appear in the state. -/
def ProcessDocument (job : ProcessingJob) (doc : PDFOpenResult) (ocr : OCRResult)
    (startT endT : Int) : ProcessingJob × Option String :=
  let job1 := { job with startedAt := some startT, status := "processing" }
  match processFile job1.options job1.metadata doc ocr with
  | Except.error e =>
      ({ job1 with status := "failed", error := "failed to process file: " ++ e },
       some ("failed to process file: " ++ e))
  | Except.ok result =>
      ({ job1 with
           completedAt := some endT,
           result := some { result with processingTime := endT - startT },
           status := "completed" },
       none)

/-- markJobFailed from the worker pool source: mark failed, record the error
message and the completion time (the best-effort status persistence is a
side effect with no influence on the job value). -/
def markJobFailed (job : ProcessingJob) (errMsg : String) (now : Int) : ProcessingJob :=
  { job with status := "failed", error := errMsg, completedAt := some now }

/-- processJob from the worker pool source: when the 30-minute semaphore
acquisition times out the job is marked failed with the context error
message; otherwise ProcessDocument runs and a returned error marks the job
failed with that message. -/
def processJob (job : ProcessingJob) (semAcquired : Bool) (doc : PDFOpenResult)
    (ocr : OCRResult) (startT endT failT : Int) : ProcessingJob :=
  if semAcquired = false then
    markJobFailed job "context deadline exceeded" failT
  else
    match ProcessDocument job doc ocr startT endT with
    | (job1, some e) => markJobFailed job1 e failT
    | (job1, none) => job1

/-- WorkerPool struct of the worker pool source, as the state visible to the
sequential operations Start, Stop, SubmitJob, GetStats and HealthCheck.  The
job queue channel is its buffered content, the semaphore its free permit
count, and the two channels carry closed flags. -/
structure WorkerPool where
  workers : Nat
  jobQueue : List String
  queueClosed : Bool
  quitClosed : Bool
  runningWorkers : Nat
  semAvailable : Nat
  active : Bool
deriving DecidableEq, Repr

/-- NewWorkerPool from the worker pool source: queue capacity is twice the
worker count (recorded implicitly as 2 * workers), the semaphore holds
one permit per worker, and the pool starts inactive. -/
def NewWorkerPool (workers : Nat) : WorkerPool :=
  { workers := workers, jobQueue := [], queueClosed := false, quitClosed := false,
    runningWorkers := 0, semAvailable := workers, active := false }

/-- Start from the worker pool source: a no-op while active; otherwise set
active and launch one goroutine per worker. -/
def Start (wp : WorkerPool) : WorkerPool :=
  if wp.active then wp
  else { wp with active := true, runningWorkers := wp.runningWorkers + wp.workers }

/-- Stop from the worker pool source: a no-op while inactive; otherwise
clear active, close the quit channel, wait for every worker to return, and
close the job queue. -/
def Stop (wp : WorkerPool) : WorkerPool :=
  if !wp.active then wp
  else { wp with active := false, quitClosed := true, runningWorkers := 0,
                 queueClosed := true }

/-- Result of SubmitJob. -/
inductive SubmitResult where
  | ok
  | poolClosed
  | queueFull
deriving DecidableEq, Repr

/-- SubmitJob from the worker pool source: reject with poolClosed while
inactive; otherwise a non-blocking channel send that enqueues when the
buffer has room and rejects with queueFull when it is saturated.  The
function is total: the caller never blocks. -/
def SubmitJob (wp : WorkerPool) (job : String) : SubmitResult × WorkerPool :=
  if !wp.active then (SubmitResult.poolClosed, wp)
  else if wp.jobQueue.length < 2 * wp.workers then
    (SubmitResult.ok, { wp with jobQueue := wp.jobQueue ++ [job] })
  else (SubmitResult.queueFull, wp)

/-- TryAcquire(n) on the weighted semaphore: take n permits when available,
else change nothing. -/
def semTryAcquire (wp : WorkerPool) (n : Nat) : Bool × WorkerPool :=
  if n ≤ wp.semAvailable then (true, { wp with semAvailable := wp.semAvailable - n })
  else (false, wp)

/-- PoolStats struct of the worker pool source (the fields GetStats fills). -/
structure PoolStats where
  totalWorkers : Nat
  activeJobs : Int
  queuedJobs : Nat
deriving DecidableEq, Repr

/-- GetStats from the worker pool source: it computes ActiveJobs from
TryAcquire(workers) on the semaphore and never releases what that call
acquired.  The Go source converts the TryAcquire boolean to an int; the
conversion is modelled as 1 for true and 0 for false. -/
def GetStats (wp : WorkerPool) : PoolStats × WorkerPool :=
  let acq := semTryAcquire wp wp.workers
  ({ totalWorkers := wp.workers,
     activeJobs := (wp.workers : Int) - (if acq.1 then 1 else 0),
     queuedJobs := acq.2.jobQueue.length },
   acq.2)

/-- Result of HealthCheck. -/
inductive HealthResult where
  | ok
  | poolClosed
  | poolOverloaded
deriving DecidableEq, Repr

/-- HealthCheck from the worker pool source: poolClosed while inactive;
otherwise acquire and immediately release one permit, reporting
poolOverloaded when the acquisition times out.  With no concurrent release
in view, the 5-second acquisition succeeds exactly when a permit is free. -/
def HealthCheck (wp : WorkerPool) : HealthResult × WorkerPool :=
  if !wp.active then (HealthResult.poolClosed, wp)
  else if 1 ≤ wp.semAvailable then (HealthResult.ok, wp)
  else (HealthResult.poolOverloaded, wp)

/-- Status of one worker goroutine in the drain model. -/
inductive WStatus where
  | idle
  | busy (j : Nat)
  | exited
deriving DecidableEq, Repr

/-- Pointwise update of a function on Nat. -/
def updF {α : Type} (f : Nat → α) (i : Nat) (x : α) : Nat → α :=
  fun k => if k = i then x else f k

/-- Global state of the pool lifecycle used for the drain and stop
properties: the queued job ids, the submitted job ids, one status per
worker goroutine, the job statuses, and the stop flags.  stopRequested
models the quit channel being closed by Stop; stopped models the return of
the WaitGroup wait inside Stop. -/
structure DrainState where
  nw : Nat
  submitted : List Nat
  queue : List Nat
  workers : Nat → WStatus
  jobStatus : Nat → String
  stopRequested : Bool
  stopped : Bool

/-- Initial drain state: an active pool with nw idle workers and nothing
submitted. -/
def initState (nw : Nat) : DrainState :=
  { nw := nw, submitted := [], queue := [], workers := fun _ => WStatus.idle,
    jobStatus := fun _ => "", stopRequested := false, stopped := false }

/-- One step of the pool lifecycle.  submit is SubmitJob on an active pool;
dequeue is a worker receiving from the job queue and entering processJob
(which first marks the job processing); finish is processJob reaching its
terminal status (completed on success, failed on any error, as processJob
always does); stopRequest is Stop closing the quit channel; workerExit is a
worker selecting the closed quit channel, which it can only do between jobs;
stopComplete is the WaitGroup wait inside Stop returning once every worker
goroutine has exited.  A worker may still dequeue after the stop request,
as the Go select between a ready queue and a closed quit channel is free to
pick either. -/
inductive DStep : DrainState → DrainState → Prop
  | submit (s : DrainState) (j : Nat) :
      s.stopRequested = false →
      DStep s { s with queue := s.queue ++ [j], submitted := s.submitted ++ [j],
                       jobStatus := updF s.jobStatus j "queued" }
  | dequeue (s : DrainState) (i j : Nat) (rest : List Nat) :
      i < s.nw → s.workers i = WStatus.idle → s.queue = j :: rest →
      DStep s { s with queue := rest, workers := updF s.workers i (WStatus.busy j),
                       jobStatus := updF s.jobStatus j "processing" }
  | finish (s : DrainState) (i j : Nat) (ok : Bool) :
      i < s.nw → s.workers i = WStatus.busy j →
      DStep s { s with workers := updF s.workers i WStatus.idle,
                       jobStatus := updF s.jobStatus j (if ok then "completed" else "failed") }
  | stopRequest (s : DrainState) :
      DStep s { s with stopRequested := true }
  | workerExit (s : DrainState) (i : Nat) :
      i < s.nw → s.stopRequested = true → s.workers i = WStatus.idle →
      DStep s { s with workers := updF s.workers i WStatus.exited }
  | stopComplete (s : DrainState) :
      s.stopRequested = true → (∀ i, i < s.nw → s.workers i = WStatus.exited) →
      DStep s { s with stopped := true }

/-- Reachability along DStep. -/
inductive DReach : DrainState → DrainState → Prop
  | refl (s : DrainState) : DReach s s
  | tail (s t u : DrainState) : DReach s t → DStep t u → DReach s u

/-- Invariant of the drain model: every submitted job is queued, held by a
worker, or terminal; a job marked processing is held by some worker; and
once Stop has returned every worker has exited. -/
structure DInv (s : DrainState) : Prop where
  placed : ∀ j ∈ s.submitted,
    j ∈ s.queue ∨ (∃ i, i < s.nw ∧ s.workers i = WStatus.busy j) ∨
      s.jobStatus j = "completed" ∨ s.jobStatus j = "failed"
  procBusy : ∀ j, s.jobStatus j = "processing" →
    ∃ i, i < s.nw ∧ s.workers i = WStatus.busy j
  stoppedExited : s.stopped = true → ∀ i, i < s.nw → s.workers i = WStatus.exited

/-- Concrete run of the drain model on a one-worker pool: job 7 submitted. -/
def drainS1 : DrainState :=
  { initState 1 with
      queue := (initState 1).queue ++ [7],
      submitted := (initState 1).submitted ++ [7],
      jobStatus := updF (initState 1).jobStatus 7 "queued" }

/-- Job 7 dequeued by worker 0 and marked processing. -/
def drainS2 : DrainState :=
  { drainS1 with
      queue := [],
      workers := updF drainS1.workers 0 (WStatus.busy 7),
      jobStatus := updF drainS1.jobStatus 7 "processing" }

/-- Job 7 finished successfully by worker 0. -/
def drainS3 : DrainState :=
  { drainS2 with
      workers := updF drainS2.workers 0 WStatus.idle,
      jobStatus := updF drainS2.jobStatus 7 "completed" }

/-- Stop requested: the quit channel is closed. -/
def drainS4 : DrainState :=
  { drainS3 with stopRequested := true }

/-- Worker 0 observes the closed quit channel and exits. -/
def drainS5 : DrainState :=
  { drainS4 with workers := updF drainS4.workers 0 WStatus.exited }

/-- The WaitGroup wait inside Stop returns: the pool is stopped. -/
def drainS6 : DrainState :=
  { drainS5 with stopped := true }

theorem updF_same {α : Type} (f : Nat → α) (i : Nat) (x : α) : updF f i x i = x := by
  simp [updF]

theorem updF_other {α : Type} (f : Nat → α) (i k : Nat) (x : α) (h : k ≠ i) :
    updF f i x k = f k := by
  simp [updF, h]

theorem DInv_init (nw : Nat) : DInv (initState nw) := by
  refine ⟨?_, ?_, ?_⟩
  · intro j hj
    simp [initState] at hj
  · intro j hj
    simp [initState] at hj
  · intro h
    simp [initState] at h

theorem DInv_step {s t : DrainState} (hs : DInv s) (st : DStep s t) : DInv t := by
  cases st with
  | submit j hstop =>
    refine ⟨?_, ?_, ?_⟩
    · intro j' hj'
      dsimp only at hj' ⊢
      simp only [List.mem_append, List.mem_singleton] at hj'
      rcases hj' with hj' | rfl
      · by_cases hjj : j' = j
        · subst hjj
          exact Or.inl (by simp)
        · rcases hs.placed j' hj' with hq | hb | hc | hf
          · exact Or.inl (by simp [hq])
          · exact Or.inr (Or.inl hb)
          · exact Or.inr (Or.inr (Or.inl (by rwa [updF_other _ _ _ _ hjj])))
          · exact Or.inr (Or.inr (Or.inr (by rwa [updF_other _ _ _ _ hjj])))
      · exact Or.inl (by simp)
    · intro j' hst
      dsimp only at hst ⊢
      by_cases hjj : j' = j
      · subst hjj
        rw [updF_same] at hst
        exact absurd hst (by decide)
      · rw [updF_other _ _ _ _ hjj] at hst
        exact hs.procBusy j' hst
    · intro h
      exact hs.stoppedExited h
  | dequeue i j rest hi hidle hq =>
    refine ⟨?_, ?_, ?_⟩
    · intro j' hj'
      dsimp only at hj' ⊢
      by_cases hjj : j' = j
      · subst hjj
        exact Or.inr (Or.inl ⟨i, hi, updF_same _ _ _⟩)
      · rcases hs.placed j' hj' with hq' | ⟨i', hi', hb⟩ | hc | hf
        · rw [hq] at hq'
          rcases List.mem_cons.mp hq' with rfl | hmem
          · exact absurd rfl hjj
          · exact Or.inl hmem
        · have hii : i' ≠ i := by
            intro he
            rw [he, hidle] at hb
            exact absurd hb (by simp)
          exact Or.inr (Or.inl ⟨i', hi', by rwa [updF_other _ _ _ _ hii]⟩)
        · exact Or.inr (Or.inr (Or.inl (by rwa [updF_other _ _ _ _ hjj])))
        · exact Or.inr (Or.inr (Or.inr (by rwa [updF_other _ _ _ _ hjj])))
    · intro j'' hst
      dsimp only at hst ⊢
      by_cases hjj : j'' = j
      · subst hjj
        exact ⟨i, hi, updF_same _ _ _⟩
      · rw [updF_other _ _ _ _ hjj] at hst
        obtain ⟨i'', hi'', hb⟩ := hs.procBusy j'' hst
        have hii : i'' ≠ i := by
          intro he
          rw [he, hidle] at hb
          exact absurd hb (by simp)
        exact ⟨i'', hi'', by rwa [updF_other _ _ _ _ hii]⟩
    · intro h
      dsimp only at h
      have hex := hs.stoppedExited h i hi
      rw [hidle] at hex
      exact absurd hex (by decide)
  | finish i j ok hi hbusy =>
    refine ⟨?_, ?_, ?_⟩
    · intro j' hj'
      dsimp only at hj' ⊢
      by_cases hjj : j' = j
      · subst hjj
        cases ok with
        | true => exact Or.inr (Or.inr (Or.inl (by rw [updF_same]; rfl)))
        | false => exact Or.inr (Or.inr (Or.inr (by rw [updF_same]; rfl)))
      · rcases hs.placed j' hj' with hq' | ⟨i', hi', hb⟩ | hc | hf
        · exact Or.inl hq'
        · have hii : i' ≠ i := by
            intro he
            rw [he, hbusy] at hb
            exact absurd (WStatus.busy.inj hb).symm hjj
          exact Or.inr (Or.inl ⟨i', hi', by rwa [updF_other _ _ _ _ hii]⟩)
        · exact Or.inr (Or.inr (Or.inl (by rwa [updF_other _ _ _ _ hjj])))
        · exact Or.inr (Or.inr (Or.inr (by rwa [updF_other _ _ _ _ hjj])))
    · intro j'' hst
      dsimp only at hst ⊢
      by_cases hjj : j'' = j
      · subst hjj
        rw [updF_same] at hst
        cases ok with
        | true => exact absurd hst (by decide)
        | false => exact absurd hst (by decide)
      · rw [updF_other _ _ _ _ hjj] at hst
        obtain ⟨i'', hi'', hb⟩ := hs.procBusy j'' hst
        have hii : i'' ≠ i := by
          intro he
          rw [he, hbusy] at hb
          exact absurd (WStatus.busy.inj hb).symm hjj
        exact ⟨i'', hi'', by rwa [updF_other _ _ _ _ hii]⟩
    · intro h
      dsimp only at h
      have hex := hs.stoppedExited h i hi
      rw [hbusy] at hex
      exact absurd hex (by simp)
  | stopRequest =>
    exact ⟨hs.placed, hs.procBusy, hs.stoppedExited⟩
  | workerExit i hi hreq hidle =>
    refine ⟨?_, ?_, ?_⟩
    · intro j' hj'
      dsimp only at hj' ⊢
      rcases hs.placed j' hj' with hq' | ⟨i', hi', hb⟩ | hc | hf
      · exact Or.inl hq'
      · have hii : i' ≠ i := by
          intro he
          rw [he, hidle] at hb
          exact absurd hb (by simp)
        exact Or.inr (Or.inl ⟨i', hi', by rwa [updF_other _ _ _ _ hii]⟩)
      · exact Or.inr (Or.inr (Or.inl hc))
      · exact Or.inr (Or.inr (Or.inr hf))
    · intro j'' hst
      dsimp only at hst ⊢
      obtain ⟨i'', hi'', hb⟩ := hs.procBusy j'' hst
      have hii : i'' ≠ i := by
        intro he
        rw [he, hidle] at hb
        exact absurd hb (by simp)
      exact ⟨i'', hi'', by rwa [updF_other _ _ _ _ hii]⟩
    · intro h k hk
      dsimp only at h hk ⊢
      by_cases hki : k = i
      · subst hki
        rw [updF_same]
      · rw [updF_other _ _ _ _ hki]
        exact hs.stoppedExited h k hk
  | stopComplete hreq hallex =>
    exact ⟨hs.placed, hs.procBusy, fun _ => hallex⟩

theorem DInv_reach {s t : DrainState} (hinv : DInv s) (h : DReach s t) : DInv t := by
  induction h with
  | refl => exact hinv
  | tail t u hrd hstep ih => exact DInv_step ih hstep

theorem foldl_relevance_ge (l : List String) (t : String) (init : ℚ) :
    init ≤ l.foldl (fun s k => if goContains t k then s + 1 / 10 else s) init := by
  induction l generalizing init with
  | nil => simp
  | cons hd tl ih =>
    simp only [List.foldl_cons]
    refine le_trans ?_ (ih _)
    split_ifs
    · linarith
    · exact le_rfl

theorem calculateQualityMetrics_pos (text : String) (pageCount : Nat) (h : 1 ≤ pageCount) :
    (calculateQualityMetrics text pageCount).textQuality
      = GoFloat.finite (min 1 ((goLen text : ℚ) / ((pageCount : ℚ) * 500))) ∧
    (calculateQualityMetrics text pageCount).completeness
      = (calculateQualityMetrics text pageCount).textQuality := by
  have hb : ((pageCount : ℚ) * 500) ≠ 0 := by
    have hp : 0 < pageCount := h
    positivity
  simp only [calculateQualityMetrics, goDiv, GoFloat.gtQ]
  rw [if_neg hb]
  constructor
  · by_cases hq : (1 : ℚ) < (goLen text : ℚ) / ((pageCount : ℚ) * 500)
    · rw [if_pos (by simpa using hq), min_eq_left hq.le]
    · rw [if_neg (by simpa using hq), min_eq_right (not_lt.mp hq)]
  · trivial

/-- C1: the claim demands TextQuality = Completeness = 0.0 at pageCount = 0
with no division by zero.  The Go code divides by zero in float64 there:
with nonempty text the quotient is +Inf and the clamp turns it into 1.0,
and with empty text it is NaN, which the clamp leaves in place — never the
0.0 the specification requires.  (For pageCount ≥ 1 the code does compute
min(1, len(text)/(pageCount*500)); see calculateQualityMetrics_pos.) -/
theorem C1_div_by_zero_effect :
    (calculateQualityMetrics "a" 0).textQuality = GoFloat.finite 1 ∧
    (calculateQualityMetrics "" 0).textQuality = GoFloat.nan ∧
    (calculateQualityMetrics "a" 0).textQuality ≠ GoFloat.finite 0 ∧
    (calculateQualityMetrics "a" 0).completeness ≠ GoFloat.finite 0 := by
  have h1 : goLen "a" = 1 := by decide
  have h0 : goLen "" = 0 := by decide
  unfold calculateQualityMetrics
  rw [h1, h0]
  norm_num [goDiv, GoFloat.gtQ]

/-- C2 counterexample: the text consisting of the single keyword penalidade
has risk score exactly 0.4, which lies in the band 0.4 ≤ s < 0.7 that the
claim assigns to the bucket medium, yet the code buckets it low because its
comparisons are strict. -/
theorem C2_bucket_counterexample :
    (performBasicRiskAnalysis "penalidade").riskScore = 4 / 10 ∧
    (4 : ℚ) / 10 ≤ (performBasicRiskAnalysis "penalidade").riskScore ∧
    (performBasicRiskAnalysis "penalidade").riskScore < 7 / 10 ∧
    (performBasicRiskAnalysis "penalidade").overallRisk = "low" ∧
    (performBasicRiskAnalysis "penalidade").overallRisk ≠ "medium" := by
  have hm : matchedRiskKeywords "penalidade" = [("penalidade", (4 : ℚ)/10)] := by rfl
  simp only [performBasicRiskAnalysis, hm]
  norm_num
  decide

/-- C2 (amended): performBasicRiskAnalysis sums the weights of the matched
keywords and clamps at 1.0, emits one IdentifiedRisk per matched keyword,
and buckets with strict bounds: low for score ≤ 0.4, medium for
0.4 < score ≤ 0.7, high for score > 0.7; a text containing exactly multa
(0.3) and rescisão (0.5) scores 0.8 and buckets high. -/
theorem C2_risk_score_buckets (text : String) :
    (performBasicRiskAnalysis text).riskScore
        = min 1 ((matchedRiskKeywords text).map (fun kw => kw.2)).sum ∧
    (performBasicRiskAnalysis text).identifiedRisks.length
        = (matchedRiskKeywords text).length ∧
    (performBasicRiskAnalysis text).overallRisk
        = (if 7 / 10 < (performBasicRiskAnalysis text).riskScore then "high"
           else if 4 / 10 < (performBasicRiskAnalysis text).riskScore then "medium"
           else "low") ∧
    (performBasicRiskAnalysis "um contrato com multa e rescisão").riskScore = 8 / 10 ∧
    (performBasicRiskAnalysis "um contrato com multa e rescisão").overallRisk = "high" := by
  have hm : matchedRiskKeywords "um contrato com multa e rescisão"
      = [("multa", (3 : ℚ)/10), ("rescisão", (5 : ℚ)/10)] := by rfl
  refine ⟨?_, ?_, ?_, ?_, ?_⟩
  · simp only [performBasicRiskAnalysis]
    split_ifs with h
    · rw [min_eq_left h.le]
    · rw [min_eq_right (not_lt.mp h)]
  · simp [performBasicRiskAnalysis]
  · rfl
  · simp only [performBasicRiskAnalysis, hm]
    norm_num
  · simp only [performBasicRiskAnalysis, hm]
    norm_num

/-- C3 counterexample: a text that matches the CNPJ regular expression of
the source pattern table but yields no extracted entity at all, refuting
the claim that every category whose pattern matches produces an entity. -/
theorem C3_pattern_counterexample :
    cnpjPatternMatches "12.345.678/9012-34" = true ∧
    extractBasicEntities "12.345.678/9012-34" = [] :=
  ⟨by decide, by rfl⟩

/-- C3 (amended): extractBasicEntities never consults the declared regex
patterns; it returns exactly one placeholder CNPJ entity, with fixed
confidence 0.85, when the text contains the literal substring CNPJ, and the
empty list otherwise — the other five categories never produce entities. -/
theorem C3_entities_placeholder (text : String) :
    extractBasicEntities text =
      (if goContains text "CNPJ" then
        [{ type := "CNPJ", value := "XX.XXX.XXX/XXXX-XX", confidence := 85 / 100,
           startPos := 0, endPos := 20, page := 1 }]
       else []) := by
  unfold extractBasicEntities entityPatterns
  cases h : goContains text "CNPJ" <;> simp [h]

/-- C4: for every input text the risk score of performBasicRiskAnalysis and
the score of generateRelevanceScore lie in the interval from 0.0 to 1.0. -/
theorem C4_scores_in_unit_interval (text : String) (metadata : List (String × String)) :
    0 ≤ (performBasicRiskAnalysis text).riskScore ∧
    (performBasicRiskAnalysis text).riskScore ≤ 1 ∧
    0 ≤ generateRelevanceScore text metadata ∧
    generateRelevanceScore text metadata ≤ 1 := by
  have hnn : (0 : ℚ) ≤ ((matchedRiskKeywords text).map (fun kw => kw.2)).sum := by
    apply List.sum_nonneg
    intro x hx
    simp only [List.mem_map] at hx
    obtain ⟨kw, hkw, rfl⟩ := hx
    have hk : kw ∈ riskKeywords := List.mem_of_mem_filter hkw
    fin_cases hk <;> norm_num
  refine ⟨?_, ?_, ?_, ?_⟩
  · simp only [performBasicRiskAnalysis]
    split_ifs with h
    · norm_num
    · exact hnn
  · simp only [performBasicRiskAnalysis]
    split_ifs with h
    · exact le_rfl
    · exact not_lt.mp h
  · simp only [generateRelevanceScore]
    split_ifs with h
    · norm_num
    · exact le_trans (by norm_num) (foldl_relevance_ge relevantKeywords (goToLower text) (1/2))
  · simp only [generateRelevanceScore]
    split_ifs with h
    · exact le_rfl
    · exact not_lt.mp h

/-- C5: SubmitJob is total (the caller never blocks) and returns poolClosed
exactly when the pool is inactive — including after any Stop — queueFull
exactly when the pool is active and the bounded queue holds its full
capacity of 2 times the worker count, and otherwise appends the job to the
queue and succeeds. -/
theorem C5_submitJob_fail_fast (wp : WorkerPool) (job : String) :
    ((SubmitJob wp job).1 = SubmitResult.poolClosed ↔ wp.active = false) ∧
    ((SubmitJob wp job).1 = SubmitResult.queueFull ↔
        (wp.active = true ∧ 2 * wp.workers ≤ wp.jobQueue.length)) ∧
    ((SubmitJob wp job).1 = SubmitResult.ok ↔
        (wp.active = true ∧ wp.jobQueue.length < 2 * wp.workers)) ∧
    (SubmitJob wp job).2.jobQueue
        = (if (SubmitJob wp job).1 = SubmitResult.ok then wp.jobQueue ++ [job]
           else wp.jobQueue) ∧
    (SubmitJob (Stop wp) job).1 = SubmitResult.poolClosed := by
  have hstop : (SubmitJob (Stop wp) job).1 = SubmitResult.poolClosed := by
    unfold SubmitJob Stop
    cases h : wp.active <;> simp [h]
  refine ⟨?_, ?_, ?_, ?_, hstop⟩ <;>
    · unfold SubmitJob
      cases hA : wp.active <;> by_cases hq : wp.jobQueue.length < 2 * wp.workers <;>
        simp [hA, hq, not_lt, le_of_not_lt]

/-- C6: a processed job always ends completed or failed; a failed job keeps
result = none (given that it entered processing with no result attached, as
every freshly submitted job does) and carries a non-empty error string, and
a result is attached exactly when the job ends completed. -/
theorem C6_result_iff_completed (job : ProcessingJob) (sem : Bool) (doc : PDFOpenResult)
    (ocr : OCRResult) (t0 t1 t2 : Int) (hres : job.result = none) :
    ((processJob job sem doc ocr t0 t1 t2).status = "completed" ∨
     (processJob job sem doc ocr t0 t1 t2).status = "failed") ∧
    ((processJob job sem doc ocr t0 t1 t2).status = "failed" →
       (processJob job sem doc ocr t0 t1 t2).result = none ∧
       (processJob job sem doc ocr t0 t1 t2).error ≠ "") ∧
    ((processJob job sem doc ocr t0 t1 t2).result.isSome ↔
       (processJob job sem doc ocr t0 t1 t2).status = "completed") := by
  have happ : ∀ e : String, ("failed to process file: " ++ e) ≠ "" := by
    intro e h
    have hl := congrArg String.length h
    rw [String.length_append] at hl
    have h24 : "failed to process file: ".length = 24 := by decide
    rw [h24] at hl
    simp at hl
  unfold processJob markJobFailed ProcessDocument
  cases sem with
  | false => simp [hres]
  | true =>
    simp only [Bool.true_eq_false, if_false, ite_false]
    cases h : processFile job.options job.metadata doc ocr with
    | error e => simp [h, hres, happ]
    | ok r => simp [h, hres]

/-- Witness for C6: a corrupted document fails extraction, the job ends
failed with no result and a non-empty error string. -/
theorem C6_result_witness :
    (processJob
        { id := "job-1", fileURL := "f.pdf", tenderID := "t-1", userID := "u-1",
          options := { enableOCR := false, languages := [], extractEntities := false,
                       analyzeRisks := false, generateScore := false, maxPages := 0, dpi := 0 },
          status := "queued", createdAt := 0, startedAt := none, completedAt := none,
          result := none, error := "", metadata := [] }
        true (PDFOpenResult.err "corrupted file") (OCRResult.err "no engine") 0 1 2).status
      = "failed" ∧
    (processJob
        { id := "job-1", fileURL := "f.pdf", tenderID := "t-1", userID := "u-1",
          options := { enableOCR := false, languages := [], extractEntities := false,
                       analyzeRisks := false, generateScore := false, maxPages := 0, dpi := 0 },
          status := "queued", createdAt := 0, startedAt := none, completedAt := none,
          result := none, error := "", metadata := [] }
        true (PDFOpenResult.err "corrupted file") (OCRResult.err "no engine") 0 1 2).result
      = none ∧
    (processJob
        { id := "job-1", fileURL := "f.pdf", tenderID := "t-1", userID := "u-1",
          options := { enableOCR := false, languages := [], extractEntities := false,
                       analyzeRisks := false, generateScore := false, maxPages := 0, dpi := 0 },
          status := "queued", createdAt := 0, startedAt := none, completedAt := none,
          result := none, error := "", metadata := [] }
        true (PDFOpenResult.err "corrupted file") (OCRResult.err "no engine") 0 1 2).error
      ≠ "" := by
  have h := C6_result_iff_completed
      { id := "job-1", fileURL := "f.pdf", tenderID := "t-1", userID := "u-1",
        options := { enableOCR := false, languages := [], extractEntities := false,
                     analyzeRisks := false, generateScore := false, maxPages := 0, dpi := 0 },
        status := "queued", createdAt := 0, startedAt := none, completedAt := none,
        result := none, error := "", metadata := [] }
      true (PDFOpenResult.err "corrupted file") (OCRResult.err "no engine") 0 1 2 rfl
  have hs : (processJob
      { id := "job-1", fileURL := "f.pdf", tenderID := "t-1", userID := "u-1",
        options := { enableOCR := false, languages := [], extractEntities := false,
                     analyzeRisks := false, generateScore := false, maxPages := 0, dpi := 0 },
        status := "queued", createdAt := 0, startedAt := none, completedAt := none,
        result := none, error := "", metadata := [] }
      true (PDFOpenResult.err "corrupted file") (OCRResult.err "no engine") 0 1 2).status
      = "failed" := rfl
  exact ⟨hs, (h.2.1 hs).1, (h.2.1 hs).2⟩

/-- C7: along every reachable pool history, once the system is drained
(empty queue and no worker holding a job) every submitted job is completed
or failed, and once Stop has returned — which the stopComplete transition
permits only after every worker goroutine has exited, each of which exits
only between jobs — no job is left in the processing state. -/
theorem C7_drain_and_stop (nw : Nat) (s : DrainState) (h : DReach (initState nw) s) :
    (s.queue = [] → (∀ i, i < s.nw → ∀ j, s.workers i ≠ WStatus.busy j) →
        ∀ j ∈ s.submitted, s.jobStatus j = "completed" ∨ s.jobStatus j = "failed") ∧
    (s.stopped = true → ∀ j, s.jobStatus j ≠ "processing") := by
  have hinv : DInv s := DInv_reach (DInv_init nw) h
  constructor
  · intro hqe hnb j hj
    rcases hinv.placed j hj with hq | ⟨i, hi, hb⟩ | hc | hf
    · rw [hqe] at hq
      exact absurd hq (List.not_mem_nil j)
    · exact absurd hb (hnb i hi j)
    · exact Or.inl hc
    · exact Or.inr hf
  · intro hstop j hst
    obtain ⟨i, hi, hb⟩ := hinv.procBusy j hst
    have hex := hinv.stoppedExited hstop i hi
    rw [hex] at hb
    exact absurd hb (by simp)

/-- Witness for C7: on a one-worker pool, job 7 is submitted, processed and
completed, the pool stops, and the reached stopped state has job 7 terminal
and not processing. -/
theorem C7_drain_witness :
    DReach (initState 1) drainS6 ∧ drainS6.submitted = [7] ∧ drainS6.stopped = true ∧
    (drainS6.jobStatus 7 = "completed" ∨ drainS6.jobStatus 7 = "failed") ∧
    drainS6.jobStatus 7 ≠ "processing" := by
  have hall : ∀ i, i < drainS5.nw → drainS5.workers i = WStatus.exited := by
    intro i hi
    have h1 : i < 1 := hi
    have h0 : i = 0 := by omega
    subst h0
    rfl
  have hreach : DReach (initState 1) drainS6 :=
    DReach.tail _ _ _
      (DReach.tail _ _ _
        (DReach.tail _ _ _
          (DReach.tail _ _ _
            (DReach.tail _ _ _
              (DReach.tail _ _ _ (DReach.refl _)
                (show DStep (initState 1) drainS1 from DStep.submit _ 7 rfl))
              (show DStep drainS1 drainS2 from DStep.dequeue _ 0 7 [] (by decide) rfl rfl))
            (show DStep drainS2 drainS3 from DStep.finish _ 0 7 true (by decide) rfl))
          (show DStep drainS3 drainS4 from DStep.stopRequest _))
        (show DStep drainS4 drainS5 from DStep.workerExit _ 0 (by decide) rfl rfl))
      (show DStep drainS5 drainS6 from DStep.stopComplete _ rfl hall)
  have hnb : ∀ i, i < drainS6.nw → ∀ j, drainS6.workers i ≠ WStatus.busy j := by
    intro i hi j h
    have h1 : i < 1 := hi
    have h0 : i = 0 := by omega
    subst h0
    have h2 : WStatus.exited = WStatus.busy j := h
    exact absurd h2 (by simp)
  have hmain := C7_drain_and_stop 1 drainS6 hreach
  exact ⟨hreach, rfl, rfl, hmain.1 rfl hnb 7 (by decide), hmain.2 rfl 7⟩

/-- C8: Start on an already active pool changes nothing (in particular no
further workers are launched) and Stop on an inactive pool changes nothing
(in particular neither channel is closed again); hence both are
idempotent. -/
theorem C8_start_stop_idempotent (wp : WorkerPool) :
    (wp.active = true → Start wp = wp) ∧
    (wp.active = false → Stop wp = wp) ∧
    Start (Start wp) = Start wp ∧
    Stop (Stop wp) = Stop wp := by
  unfold Start Stop
  cases h : wp.active <;> simp [h]

/-- Witness for C8: concrete idempotence on a fresh three-worker pool. -/
theorem C8_idempotent_witness :
    Start (Start (NewWorkerPool 3)) = Start (NewWorkerPool 3) ∧
    Stop (NewWorkerPool 3) = NewWorkerPool 3 :=
  ⟨(C8_start_stop_idempotent (Start (NewWorkerPool 3))).1 (by rfl),
   (C8_start_stop_idempotent (NewWorkerPool 3)).2.1 (by rfl)⟩

/-- C9: whenever processFile returns a result, its QualityMetrics carry the
fixed constants 0.85, 0.80 and 0.75 for OCR confidence, clarity and
readability — whatever the OCR engine reported is overwritten when the
whole struct is rebuilt by calculateQualityMetrics. -/
theorem C9_quality_constants (opts : ProcessingOptions) (metadata : List (String × String))
    (doc : PDFOpenResult) (ocr : OCRResult) (r : ProcessingResult)
    (h : processFile opts metadata doc ocr = Except.ok r) :
    r.qualityMetrics.ocrConfidence = 85 / 100 ∧
    r.qualityMetrics.documentClarity = 80 / 100 ∧
    r.qualityMetrics.readability = 75 / 100 := by
  unfold processFile at h
  cases hx : extractTextFromPDF doc with
  | error e => rw [hx] at h; exact absurd h (by simp)
  | ok p =>
    obtain ⟨text, pageCount⟩ := p
    rw [hx] at h
    simp only at h
    injection h with h5
    subst h5
    split_ifs <;> simp [calculateQualityMetrics]

/-- Witness for C9: a short text triggers OCR, the engine reports mean
confidence 42, yet the returned metrics carry the constants. -/
theorem C9_quality_witness :
    ∃ r, processFile
        { enableOCR := true, languages := [], extractEntities := true, analyzeRisks := true,
          generateScore := true, maxPages := 0, dpi := 0 }
        [] (PDFOpenResult.ok [some "edital"]) (OCRResult.ok "um texto de ocr" (some 42))
        = Except.ok r ∧
      r.qualityMetrics.ocrConfidence = 85 / 100 ∧
      r.qualityMetrics.documentClarity = 80 / 100 ∧
      r.qualityMetrics.readability = 75 / 100 := by
  obtain ⟨r, hr⟩ : ∃ r, processFile
      { enableOCR := true, languages := [], extractEntities := true, analyzeRisks := true,
        generateScore := true, maxPages := 0, dpi := 0 }
      [] (PDFOpenResult.ok [some "edital"]) (OCRResult.ok "um texto de ocr" (some 42))
      = Except.ok r := ⟨_, rfl⟩
  exact ⟨r, hr, C9_quality_constants _ _ _ _ r hr⟩

/-- C10: GetStats try-acquires all worker permits and never releases them:
on an active pool with every permit free and at least one worker, one
GetStats call leaves zero permits, after which any one-permit TryAcquire
fails and HealthCheck can only time out with poolOverloaded. -/
theorem C10_getStats_consumes_permits (wp : WorkerPool)
    (hact : wp.active = true) (hfree : wp.semAvailable = wp.workers) (hpos : 1 ≤ wp.workers) :
    1 ≤ wp.semAvailable ∧
    (GetStats wp).2.semAvailable = 0 ∧
    (semTryAcquire (GetStats wp).2 1).1 = false ∧
    (HealthCheck (GetStats wp).2).1 = HealthResult.poolOverloaded := by
  refine ⟨hfree ▸ hpos, ?_⟩
  unfold GetStats semTryAcquire HealthCheck
  simp [hfree, hact]

/-- Witness for C10: a freshly started two-worker pool. -/
theorem C10_getStats_witness :
    1 ≤ (Start (NewWorkerPool 2)).semAvailable ∧
    (GetStats (Start (NewWorkerPool 2))).2.semAvailable = 0 ∧
    (semTryAcquire (GetStats (Start (NewWorkerPool 2))).2 1).1 = false ∧
    (HealthCheck (GetStats (Start (NewWorkerPool 2))).2).1 = HealthResult.poolOverloaded :=
  C10_getStats_consumes_permits (Start (NewWorkerPool 2)) (by rfl) (by rfl) (by decide)

end Cotai
